import Mathlib

/-!
Verification of the opyndata hierarchical extraction and aggregation engine.

The definitions below are a shallow embedding of `opyndata/data_import.py`
and `opyndata/misc.py`.  An HDF recording (h5py tree) is modelled as nested
association lists: a recording holds sensor groups, a group holds sensors,
a sensor holds components, and a component holds a 1-D numeric array plus
scalar statistic attributes.  Numeric data is modelled with rationals.
Python dictionaries are modelled as insertion-ordered association lists
whose insert operation overwrites in place (keeping the original key
position) and otherwise appends at the end, exactly as CPython dicts do.
Fallible operations (KeyError, IndexError, ValueError) are modelled with
`Except`.
-/

/-- Python dict lookup: first binding of the key, if any. -/
def dictLookup {α : Type} (k : String) : List (String × α) → Option α
  | [] => none
  | (k', v) :: rest => if k' = k then some v else dictLookup k rest

/-- Python dict assignment `d[k] = v`: overwrite in place keeping the key's
original position, or append at the end when the key is fresh. -/
def dictInsert {α : Type} (k : String) (v : α) : List (String × α) → List (String × α)
  | [] => [(k, v)]
  | (k', v') :: rest => if k' = k then (k, v) :: rest else (k', v') :: dictInsert k v rest

/-- The key sequence of a dict (Python `list(d.keys())`). -/
def dictKeys {α : Type} (d : List (String × α)) : List String :=
  d.map Prod.fst

/-- Helper for `pySlice`: the counter holds the number of elements still
to skip before the next retained sample. -/
def pySliceAux {α : Type} (k : ℕ) : ℕ → List α → List α
  | _, [] => []
  | 0, a :: rest => a :: pySliceAux k (k - 1) rest
  | n + 1, _ :: rest => pySliceAux k n rest

/-- Python slice `arr[::k]`: every `k`-th element starting from the head. -/
def pySlice {α : Type} (k : ℕ) (l : List α) : List α :=
  pySliceAux k 0 l

/-- `np.linspace(start, stop, num)` with the default inclusive endpoint:
`num` evenly spaced samples from `start` to `stop`. -/
def npLinspace (start stop : ℚ) (num : ℕ) : List ℚ :=
  if num = 0 then []
  else if num = 1 then [start]
  else List.map (fun i : ℕ => start + (stop - start) * (i : ℚ) / ((num : ℚ) - 1))
    (List.range num)

/-- A component: leaf dataset (1-D numeric array) plus scalar statistic
attributes (`mean`, `std`, ...). -/
structure HComponent where
  data : List ℚ
  attrs : List (String × ℚ)
deriving DecidableEq

/-- A sensor: dict of components plus string attributes (used by
`name_from`). -/
structure HSensor where
  components : List (String × HComponent)
  attrs : List (String × String)
deriving DecidableEq

/-- A sensor group: dict of sensors. -/
structure HGroup where
  sensors : List (String × HSensor)
deriving DecidableEq

/-- A recording: dict of sensor groups plus numeric attributes
(`samplerate`, `duration`, ...). -/
structure HRecording where
  groups : List (String × HGroup)
  attrs : List (String × ℚ)
deriving DecidableEq

/-- Errors surfaced by `export_from_hdf` (Python exception kinds). -/
inductive ExportError where
  /-- `ValueError('Wrong format. Use None or dict ...')` from
  `get_valid_components`: the spec's InvalidSelectionError. -/
  | invalidSelection
  /-- `ValueError('Use "array", "dataframe" or "dict" ...')` for a bad
  `return_as` token. -/
  | invalidReturnAs
  /-- `KeyError` from an h5py / attribute lookup. -/
  | keyError (k : String)
  /-- `IndexError` from `list(sensor_data.keys())[0]` on an empty dict. -/
  | indexError
  /-- `ValueError` from `np.vstack` on an empty or ragged input. -/
  | stackError
  /-- `ValueError` from `pandas` on ragged column lengths. -/
  | lengthMismatch
deriving DecidableEq

/-- The `component_dict` argument of `export_from_hdf`: Python `None`, a
dict mapping a group/sensor name to requested component names, or a value
of any other type. -/
inductive SelectionPolicy where
  | nonePolicy
  | dict (m : List (String × List String))
  | invalid
deriving DecidableEq

/-- The `return_as` argument of `export_from_hdf`. -/
inductive ReturnAs where
  | array
  | dataframe
  | dict
  | invalid
deriving DecidableEq

/-- The value returned by `export_from_hdf`, per `return_as` mode. -/
inductive ExportOutput where
  /-- `np.vstack(list(values)).T` together with `list(keys)`; the matrix is
  kept column-major (one inner list per column). -/
  | array (data : List (List ℚ)) (keys : List String)
  | dataframe (cols : List (String × List ℚ))
  | dict (cols : List (String × List ℚ))
deriving DecidableEq

/-- `get_valid_components` closure inside `export_from_hdf`: under the
dict policy, a membership test of `check_val` (group name or sensor name,
per `lookup_sensor_groups`); under `None`, all components; any other
policy type raises the wrong-format `ValueError`. -/
def get_valid_components (component_dict : SelectionPolicy) (lookup_sensor_groups : Bool)
    (sensor_group sensor : String) (components : List String) :
    Except ExportError (List String) :=
  let check_val := if lookup_sensor_groups then sensor_group else sensor
  match component_dict with
  | .dict m =>
    match dictLookup check_val m with
    | some cs => .ok cs
    | none => .ok []
  | .nonePolicy => .ok components
  | .invalid => .error .invalidSelection

/-- Display name of a sensor: the `name_from` attribute when requested
(`KeyError` when absent), the raw sensor name otherwise. -/
def resolve_sensor_name (sensor : String) (hs : HSensor) (name_from : Option String) :
    Except ExportError String :=
  match name_from with
  | some a =>
    match dictLookup a hs.attrs with
    | some v => .ok v
    | none => .error (.keyError a)
  | none => .ok sensor

/-- Inner loop of `export_from_hdf` over the valid component names of one
sensor: build the column key `sensor_name ++ sep ++ c` and store the
decimated array in the accumulated `sensor_data` dict. -/
def exportComponents (sensor : String) (hs : HSensor) (ds : ℕ) (sep : String)
    (name_from : Option String) (acc : List (String × List ℚ)) :
    List String → Except ExportError (List (String × List ℚ))
  | [] => .ok acc
  | c :: cs =>
    match resolve_sensor_name sensor hs name_from with
    | .error e => .error e
    | .ok sensor_name =>
      match dictLookup c hs.components with
      | some comp =>
          exportComponents sensor hs ds sep name_from
            (dictInsert (sensor_name ++ sep ++ c) (pySlice ds comp.data) acc) cs
      | none => .error (.keyError c)

/-- Loop of `export_from_hdf` over the sensors of one group. -/
def exportSensors (component_dict : SelectionPolicy) (lg : Bool) (ds : ℕ) (sep : String)
    (name_from : Option String) (sensor_group : String) (acc : List (String × List ℚ)) :
    List (String × HSensor) → Except ExportError (List (String × List ℚ))
  | [] => .ok acc
  | (sensor, hs) :: rest =>
    match get_valid_components component_dict lg sensor_group sensor (dictKeys hs.components) with
    | .error e => .error e
    | .ok valid =>
      match exportComponents sensor hs ds sep name_from acc valid with
      | .error e => .error e
      | .ok acc' => exportSensors component_dict lg ds sep name_from sensor_group acc' rest

/-- Loop of `export_from_hdf` over the sensor groups of the recording. -/
def exportGroups (component_dict : SelectionPolicy) (lg : Bool) (ds : ℕ) (sep : String)
    (name_from : Option String) (acc : List (String × List ℚ)) :
    List (String × HGroup) → Except ExportError (List (String × List ℚ))
  | [] => .ok acc
  | (sensor_group, grp) :: rest =>
    match exportSensors component_dict lg ds sep name_from sensor_group acc grp.sensors with
    | .error e => .error e
    | .ok acc' => exportGroups component_dict lg ds sep name_from acc' rest

/-- The `sensor_data` dict built by the traversal loops of
`export_from_hdf` before the time axis is considered. -/
def buildSensorData (hf_recording : HRecording) (component_dict : SelectionPolicy)
    (lg : Bool) (ds : ℕ) (sep : String) (name_from : Option String) :
    Except ExportError (List (String × List ℚ)) :=
  exportGroups component_dict lg ds sep name_from [] hf_recording.groups

/-- Time-axis stage of `export_from_hdf`: when the recording has both a
`samplerate` and a `duration` attribute and `return_t` is set,
`sensor_data['t'] = np.linspace(0, duration, len(sensor_data[first key]))`;
taking the first key of an empty dict raises `IndexError`. -/
def addTimeAxis (hf_recording : HRecording) (return_t : Bool)
    (sensor_data : List (String × List ℚ)) :
    Except ExportError (List (String × List ℚ)) :=
  if (dictLookup "samplerate" hf_recording.attrs).isSome &&
      (dictLookup "duration" hf_recording.attrs).isSome && return_t then
    match sensor_data with
    | [] => .error .indexError
    | (_, v) :: _ =>
      .ok (dictInsert "t"
        (npLinspace 0 ((dictLookup "duration" hf_recording.attrs).getD 0) v.length)
        sensor_data)
  else
    .ok sensor_data

/-- All columns of a dict share one length (`pandas`/`np.vstack`
requirement). -/
def allSameLength (cols : List (String × List ℚ)) : Bool :=
  match cols with
  | [] => true
  | (_, v) :: rest => rest.all (fun p => p.2.length == v.length)

/-- Final dispatch of `export_from_hdf` on `return_as`: stack the arrays
(`np.vstack` raising on an empty or ragged input), build a dataframe
(`pandas` raising on ragged column lengths), return the dict unchanged,
or raise the bad-token `ValueError`. -/
def finalizeExport (return_as : ReturnAs) (sd : List (String × List ℚ)) :
    Except ExportError ExportOutput :=
  match return_as with
  | .array =>
    match sd with
    | [] => .error .stackError
    | _ => if allSameLength sd then .ok (.array (sd.map Prod.snd) (dictKeys sd))
           else .error .stackError
  | .dataframe =>
    if allSameLength sd then .ok (.dataframe sd) else .error .lengthMismatch
  | .dict => .ok (.dict sd)
  | .invalid => .error .invalidReturnAs

/-- `export_from_hdf(hf_recording, component_dict, lookup_sensor_groups,
return_as, decimation_factor, level_separator, return_t, name_from)`:
traverse groups / sensors / valid components storing decimated arrays
into `sensor_data`, synthesize the time axis, then dispatch on
`return_as`. -/
def export_from_hdf (hf_recording : HRecording) (component_dict : SelectionPolicy)
    (lookup_sensor_groups : Bool) (return_as : ReturnAs) (decimation_factor : ℕ)
    (level_separator : String) (return_t : Bool) (name_from : Option String) :
    Except ExportError ExportOutput :=
  match buildSensorData hf_recording component_dict lookup_sensor_groups
      decimation_factor level_separator name_from with
  | .error e => .error e
  | .ok sd0 =>
    match addTimeAxis hf_recording return_t sd0 with
    | .error e => .error e
    | .ok sd => finalizeExport return_as sd

/-- Row count of a dataframe built from a dict of equal-length columns. -/
def dfRowCount (cols : List (String × List ℚ)) : ℕ :=
  match cols with
  | [] => 0
  | (_, v) :: _ => v.length

/-- Errors surfaced by the statistics functions (Python exception kinds). -/
inductive StatsError where
  /-- `KeyError` from a dict / h5py / attribute lookup. -/
  | keyError (k : String)
  /-- `ValueError`, e.g. from `list.remove` on an absent element or from a
  `pandas` length mismatch. -/
  | valueError
  /-- `TypeError` from indexing a non-dict / non-list value. -/
  | typeError
  /-- `IndexError` from a numpy column index out of range. -/
  | indexError
deriving DecidableEq

/-- `create_sensor_dict` (misc.py): the sensor-name to group-name inverse
index, built with `dict.update` over the groups in order, so a sensor name
appearing in several groups is silently overwritten by the last group. -/
def create_sensor_dict (hf_recording : HRecording) : List (String × String) :=
  hf_recording.groups.foldl
    (fun sensor_dict p => p.2.sensors.foldl (fun d q => dictInsert q.1 p.1 d) sensor_dict)
    []

/-- A dynamically typed Python value, for the nested statistics
dictionaries handled by `get_stats` and `convert_stats`. -/
inductive PyVal where
  | pyStr : String → PyVal
  | pyRat : ℚ → PyVal
  | pyList : List PyVal → PyVal
  | pyDict : List (String × PyVal) → PyVal
  /-- a 2-D numpy array (row-major). -/
  | pyArr2 : List (List ℚ) → PyVal

/-- Innermost loop of `get_stats`: `stats[s][c][field] = component.attrs[field]`
for each requested field. -/
def getStatsFields (comp : HComponent) (acc : List (String × PyVal)) :
    List String → Except StatsError (List (String × PyVal))
  | [] => .ok acc
  | f :: fs =>
    match dictLookup f comp.attrs with
    | some v => getStatsFields comp (dictInsert f (.pyRat v) acc) fs
    | none => .error (.keyError f)

/-- Component loop of `get_stats`. -/
def getStatsComps (fields : List String) (acc : List (String × PyVal)) :
    List (String × HComponent) → Except StatsError (List (String × PyVal))
  | [] => .ok acc
  | (c, comp) :: rest =>
    match getStatsFields comp [] fields with
    | .ok fvals => getStatsComps fields (dictInsert c (.pyDict fvals) acc) rest
    | .error e => .error e

/-- Sensor loop of `get_stats`: iterate the keys of the sensor dict and
fetch each sensor through its group (`hf_recording[sensor_dict[s]][s]`). -/
def getStatsSensors (hf_recording : HRecording) (fields : List String)
    (acc : List (String × PyVal)) :
    List (String × String) → Except StatsError (List (String × PyVal))
  | [] => .ok acc
  | (s, g) :: rest =>
    match dictLookup g hf_recording.groups with
    | none => .error (.keyError g)
    | some grp =>
      match dictLookup s grp.sensors with
      | none => .error (.keyError s)
      | some sens =>
        match getStatsComps fields [] sens.components with
        | .ok comps => getStatsSensors hf_recording fields (dictInsert s (.pyDict comps) acc) rest
        | .error e => .error e

/-- `get_stats(hf_recording, fields)`: the nested mapping
sensor → component → field → scalar, read from leaf attributes after
building the sensor-name to group-name index. -/
def get_stats (hf_recording : HRecording) (fields : List String) :
    Except StatsError PyVal :=
  match getStatsSensors hf_recording fields [] (create_sensor_dict hf_recording) with
  | .ok entries => .ok (.pyDict entries)
  | .error e => .error e

/-- Python `d[k]` on a dynamically typed value: `KeyError` when the key is
absent, `TypeError` when the value is not a dict. -/
def pyDictGet (v : PyVal) (k : String) : Except StatsError PyVal :=
  match v with
  | .pyDict d =>
    match dictLookup k d with
    | some x => .ok x
    | none => .error (.keyError k)
  | _ => .error .typeError

/-- Coerce a dynamically typed value to a list of strings. -/
def asStrList : PyVal → Except StatsError (List String)
  | .pyList l => asStrListAux l
  | _ => .error .typeError
where
  asStrListAux : List PyVal → Except StatsError (List String)
  | [] => .ok []
  | .pyStr s :: rest =>
    match asStrListAux rest with
    | .ok l => .ok (s :: l)
    | .error e => .error e
  | _ :: _ => .error .typeError

/-- numpy column slice `arr[:, ix]` of a 2-D array. -/
def arr2Col (rows : List (List ℚ)) (ix : ℕ) : Except StatsError (List ℚ) :=
  if rows.all (fun r => ix < r.length) then .ok (rows.map (fun r => r.getD ix 0))
  else .error .indexError

/-- A flattened statistics dataframe as built by `convert_stats`, after
`set_index('recording')`: the row index and the named data columns. -/
structure ConvTable where
  recs : List String
  cols : List (String × List ℚ)
deriving DecidableEq

/-- Field loop of `convert_stats`:
`stats_df[field][col_name] = sensor_data[field][:, comp_ix]`. -/
def convFields (col_name : String) (sensor_data : List (String × PyVal)) (comp_ix : ℕ)
    (stats_df : List (String × ConvTable)) :
    List String → Except StatsError (List (String × ConvTable))
  | [] => .ok stats_df
  | field :: fs =>
    match dictLookup field sensor_data with
    | some (.pyArr2 rows) =>
      match arr2Col rows comp_ix with
      | .ok col =>
        match dictLookup field stats_df with
        | some t =>
          if col.length = t.recs.length then
            convFields col_name sensor_data comp_ix
              (dictInsert field { t with cols := dictInsert col_name col t.cols } stats_df) fs
          else .error .valueError
        | none => .error (.keyError field)
      | .error e => .error e
    | some _ => .error .typeError
    | none => .error (.keyError field)

/-- Component loop of `convert_stats` over
`enumerate(sensor_data['component_names'])`. -/
def convComps (sensor_group sensor_name : String) (sensor_data : List (String × PyVal))
    (fields : List String) (stats_df : List (String × ConvTable)) (comp_ix : ℕ) :
    List String → Except StatsError (List (String × ConvTable))
  | [] => .ok stats_df
  | comp_name :: rest =>
    match convFields (sensor_group ++ sensor_name ++ "/" ++ comp_name)
        sensor_data comp_ix stats_df fields with
    | .ok df => convComps sensor_group sensor_name sensor_data fields df (comp_ix + 1) rest
    | .error e => .error e

/-- Sensor loop of `convert_stats` over `stats_dict['sensor']`; the group
prefix comes from `sensor_dict[sensor_name]` when a non-empty sensor dict
was supplied (Python truthiness of `if sensor_dict:`). -/
def convSensors (sensor_dict : Option (List (String × String))) (fields : List String)
    (stats_df : List (String × ConvTable)) :
    List (String × PyVal) → Except StatsError (List (String × ConvTable))
  | [] => .ok stats_df
  | (sensor_name, sdv) :: rest =>
    match sdv with
    | .pyDict sensor_data =>
      match (match sensor_dict with
             | some sd =>
               if sd.isEmpty then Except.ok ""
               else
                 match dictLookup sensor_name sd with
                 | some g => .ok (g ++ "/")
                 | none => .error (StatsError.keyError sensor_name)
             | none => Except.ok "") with
      | .error e => .error e
      | .ok sensor_group =>
        match dictLookup "component_names" sensor_data with
        | some cn =>
          match asStrList cn with
          | .ok comp_names =>
            match convComps sensor_group sensor_name sensor_data fields stats_df 0 comp_names with
            | .ok df => convSensors sensor_dict fields df rest
            | .error e => .error e
          | .error e => .error e
        | none => .error (.keyError "component_names")
    | _ => .error .typeError

/-- `convert_stats(stats_dict, sensor_dict, fields)`: per-field dataframes
seeded from `stats_dict['recording']`, filled from
`stats_dict['sensor']`, indexed by recording at the end (modelled by the
`ConvTable.recs` field). -/
def convert_stats (stats_dict : PyVal) (sensor_dict : Option (List (String × String)))
    (fields : List String) : Except StatsError (List (String × ConvTable)) :=
  match pyDictGet stats_dict "recording" with
  | .error e => .error e
  | .ok recv =>
    match asStrList recv with
    | .error e => .error e
    | .ok recs =>
      let stats_df := fields.foldl (fun d f => dictInsert f (ConvTable.mk recs []) d) []
      match pyDictGet stats_dict "sensor" with
      | .error e => .error e
      | .ok (.pyDict sensors) => convSensors sensor_dict fields stats_df sensors
      | .ok _ => .error .typeError

/-- Python `list.remove(x)`: delete the first occurrence of `x`, raising
`ValueError` when `x` is absent. -/
def pyListRemove (x : String) : List String → Except StatsError (List String)
  | [] => .error .valueError
  | a :: rest =>
    if a = x then .ok rest
    else
      match pyListRemove x rest with
      | .ok l => .ok (a :: l)
      | .error e => .error e

/-- The `for el in list(avoid): rec_names.remove(el)` loop of
`get_stats_multi`. -/
def pyRemoveAll (avoid : List String) (l : List String) : Except StatsError (List String) :=
  match avoid with
  | [] => .ok l
  | el :: rest =>
    match pyListRemove el l with
    | .ok l' => pyRemoveAll rest l'
    | .error e => .error e

/-- A per-field statistics dataframe as built by `get_stats_multi`, after
`set_index('recording')`: the row index (one row per recording) and the
named data columns; a cell never written by `.at` stays NaN (`none`). -/
structure StatsTable where
  recs : List String
  cols : List (String × List (Option ℚ))
deriving DecidableEq

/-- pandas `df.at[ix, col] = v`: update the cell when the column exists,
otherwise append a fresh all-NaN column holding `v` at row `ix`. -/
def tableSetAt (t : StatsTable) (ix : ℕ) (col : String) (v : ℚ) : StatsTable :=
  match dictLookup col t.cols with
  | some l => { t with cols := dictInsert col (l.set ix (some v)) t.cols }
  | none => { t with cols := t.cols ++ [(col, (List.replicate t.recs.length none).set ix (some v))] }

/-- Field loop of `get_stats_multi`:
`stats_df[field].at[ix, col_name] = component.attrs[field]`. -/
def statsFields (ix : ℕ) (col : String) (comp : HComponent)
    (tables : List (String × StatsTable)) :
    List String → Except StatsError (List (String × StatsTable))
  | [] => .ok tables
  | field :: rest =>
    match dictLookup field comp.attrs with
    | some v =>
      match dictLookup field tables with
      | some t => statsFields ix col comp (dictInsert field (tableSetAt t ix col v) tables) rest
      | none => .error (.keyError field)
    | none => .error (.keyError field)

/-- Component loop of `get_stats_multi` for one sensor. -/
def statsComps (fields : List String) (ix : ℕ) (gname sname : String)
    (tables : List (String × StatsTable)) :
    List (String × HComponent) → Except StatsError (List (String × StatsTable))
  | [] => .ok tables
  | (c, comp) :: rest =>
    match statsFields ix (gname ++ "/" ++ sname ++ "/" ++ c) comp tables fields with
    | .ok tbl => statsComps fields ix gname sname tbl rest
    | .error e => .error e

/-- Sensor loop of `get_stats_multi` for one group. -/
def statsSensors (fields : List String) (ix : ℕ) (gname : String)
    (tables : List (String × StatsTable)) :
    List (String × HSensor) → Except StatsError (List (String × StatsTable))
  | [] => .ok tables
  | (s, sens) :: rest =>
    match statsComps fields ix gname s tables sens.components with
    | .ok tbl => statsSensors fields ix gname tbl rest
    | .error e => .error e

/-- Group loop of `get_stats_multi` for one recording. -/
def statsGroups (fields : List String) (ix : ℕ) (tables : List (String × StatsTable)) :
    List (String × HGroup) → Except StatsError (List (String × StatsTable))
  | [] => .ok tables
  | (g, grp) :: rest =>
    match statsSensors fields ix g tables grp.sensors with
    | .ok tbl => statsGroups fields ix tbl rest
    | .error e => .error e

/-- Recording loop of `get_stats_multi` over `enumerate(rec_names)`;
`hf[rec_name]` raises `KeyError` for an unknown recording name. -/
def statsLoop (hf : List (String × HRecording)) (fields : List String)
    (tables : List (String × StatsTable)) (ix : ℕ) :
    List String → Except StatsError (List (String × StatsTable))
  | [] => .ok tables
  | name :: rest =>
    match dictLookup name hf with
    | some r =>
      match statsGroups fields ix tables r.groups with
      | .ok tbl => statsLoop hf fields tbl (ix + 1) rest
      | .error e => .error e
    | none => .error (.keyError name)

/-- `get_stats_multi(hf, fields, rec_names, avoid)`: resolve the recording
list (all store keys when `rec_names` is `None`), remove each avoid entry
in place with `list.remove`, seed one dataframe per field, fill them with
`.at`, and index them by recording.  The first result component is the
final value of the (caller-supplied, mutated in place) `rec_names` list. -/
def get_stats_multi (hf : List (String × HRecording)) (fields : List String)
    (rec_names : Option (List String)) (avoid : List String) :
    Except StatsError (List String × List (String × StatsTable)) :=
  let names0 := match rec_names with
    | some l => l
    | none => hf.map Prod.fst
  match pyRemoveAll avoid names0 with
  | .error e => .error e
  | .ok names =>
    let init := fields.foldl (fun d f => dictInsert f (StatsTable.mk names []) d) []
    match statsLoop hf fields init 0 names with
    | .ok tables => .ok (names, tables)
    | .error e => .error e

/-! ### The resolved-triple view of the export traversal

`export_from_hdf` visits (group, sensor, component) triples in traversal
order; the functions below collect the `(column key, decimated array)`
pair of every visited triple as a plain sequence, before the Python dict
collapses duplicate keys.  They follow the source loops exactly and are
related to `buildSensorData` by `buildSensorData_eq_resolvedEntries`. -/

/-- The `(key, array)` pairs contributed by the valid components of one
sensor, in visit order, without dict collapsing. -/
def entriesComponents (sensor : String) (hs : HSensor) (ds : ℕ) (sep : String)
    (name_from : Option String) :
    List String → Except ExportError (List (String × List ℚ))
  | [] => .ok []
  | c :: cs =>
    match resolve_sensor_name sensor hs name_from with
    | .error e => .error e
    | .ok sensor_name =>
      match dictLookup c hs.components with
      | some comp =>
        match entriesComponents sensor hs ds sep name_from cs with
        | .ok rest => .ok ((sensor_name ++ sep ++ c, pySlice ds comp.data) :: rest)
        | .error e => .error e
      | none => .error (.keyError c)

/-- The `(key, array)` pairs contributed by the sensors of one group. -/
def entriesSensors (component_dict : SelectionPolicy) (lg : Bool) (ds : ℕ) (sep : String)
    (name_from : Option String) (sensor_group : String) :
    List (String × HSensor) → Except ExportError (List (String × List ℚ))
  | [] => .ok []
  | (sensor, hs) :: rest =>
    match get_valid_components component_dict lg sensor_group sensor (dictKeys hs.components) with
    | .error e => .error e
    | .ok valid =>
      match entriesComponents sensor hs ds sep name_from valid with
      | .error e => .error e
      | .ok es =>
        match entriesSensors component_dict lg ds sep name_from sensor_group rest with
        | .ok es' => .ok (es ++ es')
        | .error e => .error e

/-- The `(key, array)` pairs contributed by all groups. -/
def entriesGroups (component_dict : SelectionPolicy) (lg : Bool) (ds : ℕ) (sep : String)
    (name_from : Option String) :
    List (String × HGroup) → Except ExportError (List (String × List ℚ))
  | [] => .ok []
  | (sensor_group, grp) :: rest =>
    match entriesSensors component_dict lg ds sep name_from sensor_group grp.sensors with
    | .error e => .error e
    | .ok es =>
      match entriesGroups component_dict lg ds sep name_from rest with
      | .ok es' => .ok (es ++ es')
      | .error e => .error e

/-- The full sequence of `(column key, decimated array)` pairs of the
resolved (group, sensor, component) triples of one export call, one pair
per triple, in visit order. -/
def resolvedEntries (hf_recording : HRecording) (component_dict : SelectionPolicy)
    (lg : Bool) (ds : ℕ) (sep : String) (name_from : Option String) :
    Except ExportError (List (String × List ℚ)) :=
  entriesGroups component_dict lg ds sep name_from hf_recording.groups

/-- Collapse an entry sequence into a Python dict by repeated assignment. -/
def pyDictOf {α : Type} (es : List (String × α)) : List (String × α) :=
  es.foldl (fun d p => dictInsert p.1 p.2 d) []

/-! ### Concrete recordings and stores used as test inputs -/

/-- A recording with a `duration` attribute but no `samplerate`. -/
def recDurOnly : HRecording :=
  ⟨[("g", ⟨[("s", ⟨[("x", ⟨[1, 2], []⟩)], []⟩)]⟩)], [("duration", 50)]⟩

/-- A recording with both `samplerate` and `duration` attributes and one
non-empty component. -/
def recTimed : HRecording :=
  ⟨[("g", ⟨[("s", ⟨[("x", ⟨[1, 2], []⟩)], []⟩)]⟩)],
   [("samplerate", 2), ("duration", 50)]⟩

/-- A recording with both time attributes whose only component array is
empty, so decimation retains zero samples. -/
def recEmptyData : HRecording :=
  ⟨[("g", ⟨[("s", ⟨[("x", ⟨[], []⟩)], []⟩)]⟩)],
   [("samplerate", 2), ("duration", 50)]⟩

/-- A recording in which two distinct groups contain a sensor of the same
name `s`, with distinguishable `mean` attributes. -/
def recDupSensor : HRecording :=
  ⟨[("A", ⟨[("s", ⟨[("x", ⟨[], [("mean", 1)]⟩)], []⟩)]⟩),
    ("B", ⟨[("s", ⟨[("x", ⟨[], [("mean", 2)]⟩)], []⟩)]⟩)], []⟩

/-- A recording with two groups, statistics attributes on every component,
and both time attributes. -/
def recStats : HRecording :=
  ⟨[("wave", ⟨[("h_sensor", ⟨[("h", ⟨[1, 2, 3], [("mean", 3), ("std", 1)]⟩)], []⟩)]⟩),
    ("wind", ⟨[("U_sensor", ⟨[("U", ⟨[10, 20, 30], [("mean", 30), ("std", 2)]⟩)], []⟩)]⟩)],
   [("samplerate", 2), ("duration", 50)]⟩

/-- A recording with no sensor groups at all. -/
def recEmpty : HRecording := ⟨[], []⟩

/-- Two groups holding equally named sensors with equally named
components, so two resolved triples collide on one column key. -/
def recCollide : HRecording :=
  ⟨[("g1", ⟨[("s", ⟨[("x", ⟨[1, 2], []⟩)], []⟩)]⟩),
    ("g2", ⟨[("s", ⟨[("x", ⟨[3, 4], []⟩)], []⟩)]⟩)], []⟩

/-- A recording with one component of raw length 5 and no attributes. -/
def recLen5 : HRecording :=
  ⟨[("g", ⟨[("s", ⟨[("x", ⟨[1, 2, 3, 4, 5], []⟩)], []⟩)]⟩)], []⟩

/-- A single-recording store for the statistics aggregation tests. -/
def storeStats : List (String × HRecording) := [("r1", recStats)]

/-- A store whose only recording has no groups. -/
def storeBare : List (String × HRecording) := [("r1", recEmpty)]

/-! ### Basic lemmas about the Python dict model -/

theorem dictLookup_dictInsert_self {α : Type} (k : String) (v : α) (d : List (String × α)) :
    dictLookup k (dictInsert k v d) = some v := by
  induction d with
  | nil => simp [dictInsert, dictLookup]
  | cons p rest ih =>
    obtain ⟨k', v'⟩ := p
    by_cases h : k' = k
    · simp [dictInsert, h, dictLookup]
    · rw [dictInsert, if_neg h, dictLookup, if_neg h]
      exact ih

theorem dictLookup_dictInsert_ne {α : Type} {k' k : String} (h : k' ≠ k) (v : α)
    (d : List (String × α)) :
    dictLookup k' (dictInsert k v d) = dictLookup k' d := by
  have hne : k ≠ k' := Ne.symm h
  induction d with
  | nil => simp [dictInsert, dictLookup, if_neg hne]
  | cons p rest ih =>
    obtain ⟨k₀, v₀⟩ := p
    by_cases h₀ : k₀ = k
    · subst h₀
      simp only [dictInsert, if_pos rfl, dictLookup]
      rw [if_neg hne, if_neg hne]
    · simp only [dictInsert, if_neg h₀, dictLookup]
      by_cases h₁ : k₀ = k'
      · rw [if_pos h₁, if_pos h₁]
      · rw [if_neg h₁, if_neg h₁, ih]

theorem dictLookup_mem {α : Type} {k : String} {v : α} {d : List (String × α)}
    (h : dictLookup k d = some v) : (k, v) ∈ d := by
  induction d with
  | nil => simp [dictLookup] at h
  | cons p rest ih =>
    obtain ⟨k₀, v₀⟩ := p
    by_cases h₀ : k₀ = k
    · subst h₀
      rw [dictLookup, if_pos rfl] at h
      obtain rfl : v₀ = v := Option.some.inj h
      exact List.mem_cons_self _ _
    · rw [dictLookup, if_neg h₀] at h
      exact List.mem_cons_of_mem _ (ih h)

theorem mem_dictInsert {α : Type} {p : String × α} {k : String} {v : α}
    {d : List (String × α)} (h : p ∈ dictInsert k v d) : p = (k, v) ∨ p ∈ d := by
  induction d with
  | nil => simpa [dictInsert] using h
  | cons q rest ih =>
    obtain ⟨k₀, v₀⟩ := q
    by_cases h₀ : k₀ = k
    · rw [dictInsert, if_pos h₀] at h
      rcases List.mem_cons.mp h with h | h
      · exact Or.inl h
      · exact Or.inr (List.mem_cons_of_mem _ h)
    · rw [dictInsert, if_neg h₀] at h
      rcases List.mem_cons.mp h with h | h
      · exact Or.inr (by simp [h])
      · rcases ih h with h | h
        · exact Or.inl h
        · exact Or.inr (List.mem_cons_of_mem _ h)

theorem mem_keys_dictInsert {α : Type} {a k : String} {v : α} {d : List (String × α)} :
    a ∈ dictKeys (dictInsert k v d) ↔ a = k ∨ a ∈ dictKeys d := by
  induction d with
  | nil => simp [dictInsert, dictKeys]
  | cons q rest ih =>
    obtain ⟨k₀, v₀⟩ := q
    by_cases h₀ : k₀ = k
    · subst h₀
      simp [dictInsert, dictKeys]
    · rw [dictInsert, if_neg h₀]
      simp only [dictKeys, List.map_cons, List.mem_cons] at ih ⊢
      constructor
      · rintro (h | h)
        · exact Or.inr (Or.inl h)
        · rcases ih.mp h with h | h
          · exact Or.inl h
          · exact Or.inr (Or.inr h)
      · rintro (h | h | h)
        · exact Or.inr (ih.mpr (Or.inl h))
        · exact Or.inl h
        · exact Or.inr (ih.mpr (Or.inr h))

theorem dictKeys_dictInsert_of_mem {α : Type} {k : String} (v : α) {d : List (String × α)}
    (h : k ∈ dictKeys d) : dictKeys (dictInsert k v d) = dictKeys d := by
  induction d with
  | nil => simp [dictKeys] at h
  | cons q rest ih =>
    obtain ⟨k₀, v₀⟩ := q
    by_cases h₀ : k₀ = k
    · rw [dictInsert, if_pos h₀]
      simp [dictKeys, h₀]
    · rw [dictInsert, if_neg h₀]
      simp only [dictKeys, List.map_cons, List.mem_cons] at h
      rcases h with h | h
      · exact absurd h.symm h₀
      · simp only [dictKeys, List.map_cons]
        rw [show List.map Prod.fst (dictInsert k v rest) = dictKeys (dictInsert k v rest) from rfl,
          ih h]
        rfl

theorem length_dictInsert_of_mem {α : Type} {k : String} (v : α) {d : List (String × α)}
    (h : k ∈ dictKeys d) : (dictInsert k v d).length = d.length := by
  have h1 : (dictKeys (dictInsert k v d)).length = (dictKeys d).length := by
    rw [dictKeys_dictInsert_of_mem v h]
  simpa [dictKeys] using h1

theorem length_dictInsert_of_not_mem {α : Type} {k : String} (v : α) {d : List (String × α)}
    (h : k ∉ dictKeys d) : (dictInsert k v d).length = d.length + 1 := by
  induction d with
  | nil => simp [dictInsert]
  | cons q rest ih =>
    obtain ⟨k₀, v₀⟩ := q
    simp only [dictKeys, List.map_cons, List.mem_cons, not_or] at h
    have h₀ : k₀ ≠ k := fun hh => h.1 hh.symm
    rw [dictInsert, if_neg h₀]
    simp only [List.length_cons]
    rw [ih h.2]

theorem dictInsert_of_not_mem {α : Type} {k : String} (v : α) {d : List (String × α)}
    (h : k ∉ dictKeys d) : dictInsert k v d = d ++ [(k, v)] := by
  induction d with
  | nil => simp [dictInsert]
  | cons q rest ih =>
    obtain ⟨k₀, v₀⟩ := q
    simp only [dictKeys, List.map_cons, List.mem_cons, not_or] at h
    have h₀ : k₀ ≠ k := fun hh => h.1 hh.symm
    rw [dictInsert, if_neg h₀, List.cons_append, ih h.2]

theorem dictLookup_append {α : Type} (k : String) (l₁ l₂ : List (String × α)) :
    dictLookup k (l₁ ++ l₂) =
      match dictLookup k l₁ with
      | some v => some v
      | none => dictLookup k l₂ := by
  induction l₁ with
  | nil => simp [dictLookup]
  | cons q rest ih =>
    obtain ⟨k₀, v₀⟩ := q
    by_cases h₀ : k₀ = k
    · rw [List.cons_append, dictLookup, if_pos h₀, dictLookup, if_pos h₀]
    · rw [List.cons_append, dictLookup, if_neg h₀, dictLookup, if_neg h₀, ih]

/-! ### Lengths of decimated arrays and of the synthesized time axis -/

theorem pySliceAux_drop {α : Type} (k : ℕ) :
    ∀ (n : ℕ) (l : List α), pySliceAux k n l = pySliceAux k 0 (l.drop n) := by
  intro n
  induction n with
  | zero => intro l; rw [List.drop_zero]
  | succ n ih =>
    intro l
    cases l with
    | nil => rfl
    | cons a rest =>
      show pySliceAux k n rest = pySliceAux k 0 (rest.drop n)
      exact ih rest

theorem pySlice_cons {α : Type} (k : ℕ) (a : α) (rest : List α) :
    pySlice k (a :: rest) = a :: pySlice k (rest.drop (k - 1)) := by
  show a :: pySliceAux k (k - 1) rest = a :: pySliceAux k 0 (rest.drop (k - 1))
  rw [pySliceAux_drop]

theorem pySlice_length {α : Type} {k : ℕ} (hk : 1 ≤ k) :
    ∀ l : List α, (pySlice k l).length = (l.length + k - 1) / k := by
  have hk0 : 0 < k := hk
  intro l
  generalize hn : l.length = n
  induction n using Nat.strong_induction_on generalizing l with
  | _ n ih =>
    cases l with
    | nil =>
      simp only [List.length_nil] at hn
      subst hn
      simp only [pySlice, pySliceAux, List.length_nil]
      rw [Nat.div_eq_of_lt (by omega)]
    | cons a rest =>
      simp only [List.length_cons] at hn
      subst hn
      rw [pySlice_cons]
      simp only [List.length_cons]
      have hd : (rest.drop (k - 1)).length = rest.length - (k - 1) := List.length_drop _ _
      rw [ih (rest.drop (k - 1)).length (by rw [hd]; omega) _ rfl, hd]
      rcases Nat.lt_or_ge rest.length (k - 1) with hm | hm
      · have h1 : rest.length - (k - 1) + k - 1 = k - 1 := by omega
        have h2 : rest.length + 1 + k - 1 = rest.length + k := by omega
        have h3 : (k - 1) / k = 0 := Nat.div_eq_of_lt (by omega)
        have h4 : rest.length / k = 0 := Nat.div_eq_of_lt (by omega)
        rw [h1, h2, h3, Nat.add_div_right _ hk0, h4]
      · have h1 : rest.length - (k - 1) + k - 1 = rest.length := by omega
        have h2 : rest.length + 1 + k - 1 = rest.length + k := by omega
        rw [h1, h2, Nat.add_div_right _ hk0]

theorem npLinspace_length (start stop : ℚ) (num : ℕ) :
    (npLinspace start stop num).length = num := by
  unfold npLinspace
  by_cases h0 : num = 0
  · rw [if_pos h0, h0]
    rfl
  · by_cases h1 : num = 1
    · rw [if_neg h0, if_pos h1, h1]
      rfl
    · rw [if_neg h0, if_neg h1, List.length_map, List.length_range]

/-! ### Claim C3 -/

/-- C3: the spec claims `get_stats_multi` and `convert_stats ∘ get_stats`
produce identical per-field tables for a single recording.  In the code
this composition is impossible: `get_stats` returns a mapping keyed by
sensor names while `convert_stats` (whose own docstring says its input is
the "result from get_stats") indexes its argument with the keys
`recording` and `sensor`, so the composition raises `KeyError('recording')`
on `recStats` while `get_stats_multi` succeeds on the same recording and
field set. -/
theorem C3_convert_stats_incompatible_with_get_stats :
    (match get_stats recStats ["mean", "std"] with
     | .ok sd => convert_stats sd Option.none ["mean", "std"]
     | .error e => .error e) = .error (.keyError "recording") ∧
    get_stats_multi storeStats ["mean", "std"] (some ["r1"]) [] =
      .ok (["r1"],
        [("mean", ⟨["r1"], [("wave/h_sensor/h", [some 3]), ("wind/U_sensor/U", [some 30])]⟩),
         ("std", ⟨["r1"], [("wave/h_sensor/h", [some 1]), ("wind/U_sensor/U", [some 2])]⟩)]) :=
  ⟨rfl, rfl⟩

/-! ### Claim C5 -/

/-- C5: the spec claims `get_stats` fails with a DuplicateSensorNameError
when two groups share a sensor name.  The code has no such error:
`create_sensor_dict` resolves the duplicate name `s` by last-write-wins
dict overwrite (to group `B`), and `get_stats` silently returns the
statistics of group `B`'s copy of `s` on `recDupSensor`. -/
theorem C5_duplicate_sensor_name_overwritten :
    create_sensor_dict recDupSensor = [("s", "B")] ∧
    get_stats recDupSensor ["mean"] =
      .ok (.pyDict [("s", .pyDict [("x", .pyDict [("mean", .pyRat 2)])])]) :=
  ⟨rfl, rfl⟩

/-! ### Claim C8 -/

/-- C8: the spec demands an EmptySelectionError when decimation retains a
zero-length array.  The code has no such error: on `recEmptyData` (whose
only component array is empty, with both time attributes present)
`export_from_hdf` succeeds and synthesizes a degenerate empty time axis. -/
theorem C8_empty_arrays_exported_without_error :
    export_from_hdf recEmptyData .nonePolicy true .dataframe 1 "/" true Option.none =
      .ok (.dataframe [("s/x", []), ("t", [])]) :=
  rfl

/-! ### Error classification lemmas for the export pipeline -/

theorem resolve_sensor_name_error {sensor : String} {hs : HSensor} {nf : Option String}
    {e : ExportError} (h : resolve_sensor_name sensor hs nf = .error e) :
    ∃ s, e = ExportError.keyError s := by
  cases nf with
  | none => simp [resolve_sensor_name] at h
  | some a =>
    cases hl : dictLookup a hs.attrs with
    | some v => simp [resolve_sensor_name, hl] at h
    | none =>
      simp only [resolve_sensor_name, hl, Except.error.injEq] at h
      exact ⟨a, h.symm⟩

theorem exportComponents_error_keyError {sensor : String} {hs : HSensor} {ds : ℕ}
    {sep : String} {nf : Option String} {acc : List (String × List ℚ)}
    {cs : List String} {e : ExportError}
    (h : exportComponents sensor hs ds sep nf acc cs = .error e) :
    ∃ s, e = ExportError.keyError s := by
  induction cs generalizing acc with
  | nil => simp [exportComponents] at h
  | cons c cs ih =>
    rw [exportComponents] at h
    cases hr : resolve_sensor_name sensor hs nf with
    | error e' =>
      rw [hr] at h
      simp only [Except.error.injEq] at h
      exact h ▸ resolve_sensor_name_error hr
    | ok sensor_name =>
      rw [hr] at h
      dsimp only at h
      cases hc : dictLookup c hs.components with
      | some comp => rw [hc] at h; exact ih h
      | none =>
        rw [hc] at h
        simp only [Except.error.injEq] at h
        exact ⟨c, h.symm⟩

theorem get_valid_components_ok {policy : SelectionPolicy} {lg : Bool}
    {g s : String} {comps : List String} (hp : policy ≠ SelectionPolicy.invalid) :
    ∃ cs, get_valid_components policy lg g s comps = .ok cs := by
  cases policy with
  | nonePolicy => exact ⟨comps, rfl⟩
  | invalid => exact absurd rfl hp
  | dict m =>
    cases hl : dictLookup (if lg then g else s) m with
    | some cs => exact ⟨cs, by simp only [get_valid_components, hl]⟩
    | none => exact ⟨[], by simp only [get_valid_components, hl]⟩

theorem exportSensors_error_keyError {policy : SelectionPolicy} {lg : Bool} {ds : ℕ}
    {sep : String} {nf : Option String} {g : String} {acc : List (String × List ℚ)}
    {ss : List (String × HSensor)} {e : ExportError}
    (hp : policy ≠ SelectionPolicy.invalid)
    (h : exportSensors policy lg ds sep nf g acc ss = .error e) :
    ∃ s, e = ExportError.keyError s := by
  induction ss generalizing acc with
  | nil => simp [exportSensors] at h
  | cons p rest ih =>
    obtain ⟨sensor, hs⟩ := p
    rw [exportSensors] at h
    obtain ⟨cs, hcs⟩ :=
      @get_valid_components_ok policy lg g sensor (dictKeys hs.components) hp
    rw [hcs] at h
    dsimp only at h
    cases hc : exportComponents sensor hs ds sep nf acc cs with
    | error e' =>
      rw [hc] at h
      simp only [Except.error.injEq] at h
      exact h ▸ exportComponents_error_keyError hc
    | ok acc' =>
      rw [hc] at h
      exact ih h

theorem exportGroups_error_keyError {policy : SelectionPolicy} {lg : Bool} {ds : ℕ}
    {sep : String} {nf : Option String} {acc : List (String × List ℚ)}
    {gs : List (String × HGroup)} {e : ExportError}
    (hp : policy ≠ SelectionPolicy.invalid)
    (h : exportGroups policy lg ds sep nf acc gs = .error e) :
    ∃ s, e = ExportError.keyError s := by
  induction gs generalizing acc with
  | nil => simp [exportGroups] at h
  | cons p rest ih =>
    obtain ⟨g, grp⟩ := p
    rw [exportGroups] at h
    cases hx : exportSensors policy lg ds sep nf g acc grp.sensors with
    | error e' =>
      rw [hx] at h
      simp only [Except.error.injEq] at h
      exact h ▸ exportSensors_error_keyError hp hx
    | ok acc' =>
      rw [hx] at h
      exact ih h

theorem exportSensors_invalid {lg : Bool} {ds : ℕ} {sep : String} {nf : Option String}
    {g : String} {acc : List (String × List ℚ)} {sensor : String} {hs : HSensor}
    {rest : List (String × HSensor)} :
    exportSensors .invalid lg ds sep nf g acc ((sensor, hs) :: rest) =
      .error .invalidSelection := rfl

theorem exportGroups_invalid_iff {lg : Bool} {ds : ℕ} {sep : String} {nf : Option String}
    {acc : List (String × List ℚ)} {gs : List (String × HGroup)} :
    exportGroups .invalid lg ds sep nf acc gs = .error .invalidSelection ↔
      ∃ p ∈ gs, p.2.sensors ≠ [] := by
  induction gs generalizing acc with
  | nil => simp [exportGroups]
  | cons p rest ih =>
    obtain ⟨g, grp⟩ := p
    rw [exportGroups]
    cases hsen : grp.sensors with
    | nil =>
      simp only [exportSensors]
      rw [ih]
      constructor
      · rintro ⟨q, hq, hne⟩
        exact ⟨q, List.mem_cons_of_mem _ hq, hne⟩
      · rintro ⟨q, hq, hne⟩
        rcases List.mem_cons.mp hq with h | h
        · subst h; simp [hsen] at hne
        · exact ⟨q, h, hne⟩
    | cons q qs =>
      obtain ⟨sensor, hsensor⟩ := q
      rw [exportSensors_invalid]
      constructor
      · intro _
        exact ⟨(g, grp), List.mem_cons_self _ _, by simp [hsen]⟩
      · intro _
        rfl

theorem addTimeAxis_error_eq {rec : HRecording} {rt : Bool}
    {sd : List (String × List ℚ)} {e : ExportError}
    (h : addTimeAxis rec rt sd = .error e) : e = .indexError := by
  unfold addTimeAxis at h
  split at h
  · cases sd with
    | nil =>
      simp only [Except.error.injEq] at h
      exact h.symm
    | cons p rest =>
      obtain ⟨a, b⟩ := p
      simp at h
  · simp at h

theorem finalizeExport_ne_invalidSelection (ra : ReturnAs) (sd : List (String × List ℚ)) :
    finalizeExport ra sd ≠ .error .invalidSelection := by
  cases ra with
  | array =>
    cases sd with
    | nil => simp [finalizeExport]
    | cons p rest =>
      simp only [finalizeExport]
      split <;> simp
  | dataframe =>
    simp only [finalizeExport]
    split <;> simp
  | dict => simp [finalizeExport]
  | invalid => simp [finalizeExport]

theorem export_invalidSelection_iff_build (rec : HRecording) (policy : SelectionPolicy)
    (lg rt : Bool) (ra : ReturnAs) (ds : ℕ) (sep : String) (nf : Option String) :
    export_from_hdf rec policy lg ra ds sep rt nf = .error .invalidSelection ↔
      buildSensorData rec policy lg ds sep nf = .error .invalidSelection := by
  unfold export_from_hdf
  cases hb : buildSensorData rec policy lg ds sep nf with
  | error e => simp
  | ok sd0 =>
    dsimp only
    cases ht : addTimeAxis rec rt sd0 with
    | error e =>
      have he := addTimeAxis_error_eq ht
      subst he
      simp
    | ok sd =>
      dsimp only
      simp only [finalizeExport_ne_invalidSelection ra sd]
      simp

/-! ### Claim C9 -/

/-- C9 counterexample: on a recording with no sensors at all (here: no
groups), a selection policy of the wrong type is accepted silently —
`export_from_hdf` returns an empty dataframe instead of raising the
wrong-format `ValueError`, because the format check lives inside the
per-sensor loop. -/
theorem C9_counterexample_invalid_policy_accepted_when_no_sensors :
    export_from_hdf recEmpty .invalid true .dataframe 1 "/" true Option.none =
      .ok (.dataframe []) ∧
    export_from_hdf recEmpty .invalid true .dataframe 1 "/" true Option.none ≠
      .error .invalidSelection :=
  ⟨rfl, fun h => by
    rw [show export_from_hdf recEmpty .invalid true .dataframe 1 "/" true Option.none =
      .ok (.dataframe []) from rfl] at h
    cases h⟩

/-- C9 (amended): `export_from_hdf` raises the wrong-format error
(InvalidSelectionError) for a policy that is neither `None` nor a dict if
and only if the recording contains at least one sensor — the check runs
once per sensor, so a recording with no sensors never triggers it — and it
never raises that error when the policy is `None` or a dict. -/
theorem C9_invalid_selection_requires_a_sensor (rec : HRecording) (lg rt : Bool)
    (ra : ReturnAs) (ds : ℕ) (sep : String) (nf : Option String) :
    (export_from_hdf rec .invalid lg ra ds sep rt nf = .error .invalidSelection ↔
      ∃ p ∈ rec.groups, p.2.sensors ≠ []) ∧
    (∀ m, export_from_hdf rec (.dict m) lg ra ds sep rt nf ≠ .error .invalidSelection) ∧
    export_from_hdf rec .nonePolicy lg ra ds sep rt nf ≠ .error .invalidSelection := by
  refine ⟨?_, ?_, ?_⟩
  · rw [export_invalidSelection_iff_build]
    exact exportGroups_invalid_iff
  · intro m h
    rw [export_invalidSelection_iff_build] at h
    obtain ⟨s, hs⟩ := exportGroups_error_keyError (by simp) h
    cases hs
  · intro h
    rw [export_invalidSelection_iff_build] at h
    obtain ⟨s, hs⟩ := exportGroups_error_keyError (by simp) h
    cases hs

/-! ### Claim C1 -/

/-- C1 counterexample: a `duration` attribute and a requested time axis do
NOT suffice to synthesize `t` — `recDurOnly` has `duration` (but no
`samplerate`) and `return_t = true`, yet the output has no `t` column,
because the code additionally requires a `samplerate` attribute. -/
theorem C1_counterexample_duration_alone_does_not_trigger_t :
    export_from_hdf recDurOnly .nonePolicy true .dict 1 "/" true Option.none =
      .ok (.dict [("s/x", [1, 2])]) ∧
    dictLookup "t" [("s/x", ([1, 2] : List ℚ))] = Option.none :=
  ⟨rfl, rfl⟩

/-- C1 (amended): when the recording has BOTH a `samplerate` and a
`duration` attribute, the time axis is requested, and at least one array
was retained, `export_from_hdf` stores under `t` the `np.linspace`
sequence of N evenly spaced samples from 0 to `duration`, where N is the
length of the first retained (decimated) array. -/
theorem C1_time_axis_from_duration_and_samplerate (rec : HRecording)
    (policy : SelectionPolicy) (lg : Bool) (ds : ℕ) (sep : String) (nf : Option String)
    (dur : ℚ) (k0 : String) (v0 : List ℚ) (tl : List (String × List ℚ))
    (hs : (dictLookup "samplerate" rec.attrs).isSome = true)
    (hd : dictLookup "duration" rec.attrs = some dur)
    (hb : buildSensorData rec policy lg ds sep nf = .ok ((k0, v0) :: tl)) :
    export_from_hdf rec policy lg .dict ds sep true nf =
      .ok (.dict (dictInsert "t" (npLinspace 0 dur v0.length) ((k0, v0) :: tl))) ∧
    dictLookup "t" (dictInsert "t" (npLinspace 0 dur v0.length) ((k0, v0) :: tl)) =
      some (npLinspace 0 dur v0.length) := by
  constructor
  · unfold export_from_hdf
    rw [hb]
    dsimp only
    unfold addTimeAxis
    rw [hs, hd]
    simp only [Option.isSome_some, Option.getD_some, Bool.and_self, Bool.and_true,
      Bool.true_and, if_true]
    rfl
  · exact dictLookup_dictInsert_self _ _ _

/-- C1 witness: the amended theorem applied to the concrete recording
`recTimed` (both attributes present, one retained column of length 2). -/
theorem C1_time_axis_from_duration_and_samplerate_witness :
    export_from_hdf recTimed .nonePolicy true .dict 1 "/" true Option.none =
      .ok (.dict (dictInsert "t" (npLinspace 0 50 2) [("s/x", [1, 2])])) ∧
    dictLookup "t" (dictInsert "t" (npLinspace 0 50 2) [("s/x", [1, 2])]) =
      some (npLinspace 0 50 2) :=
  C1_time_axis_from_duration_and_samplerate recTimed .nonePolicy true 1 "/" Option.none
    50 "s/x" [1, 2] [] rfl rfl rfl

/-! ### Claim C2 -/

/-- C2 counterexample: with an empty selection-policy mapping on a
recording that has both time attributes, `export_from_hdf` raises
`IndexError` (from `list(sensor_data.keys())[0]` on the empty dict)
instead of returning a table with only the time column. -/
theorem C2_counterexample_empty_policy_raises_with_time_attrs :
    export_from_hdf recTimed (.dict []) true .dataframe 1 "/" true Option.none =
      .error .indexError :=
  rfl

theorem exportSensors_miss {m : List (String × List String)} {lg : Bool} {ds : ℕ}
    {sep : String} {nf : Option String} {g : String} {acc : List (String × List ℚ)}
    {ss : List (String × HSensor)}
    (h : ∀ q ∈ ss, dictLookup (if lg then g else q.1) m = Option.none) :
    exportSensors (.dict m) lg ds sep nf g acc ss = .ok acc := by
  induction ss with
  | nil => rfl
  | cons q rest ih =>
    obtain ⟨sensor, hsen⟩ := q
    rw [exportSensors]
    have hq := h (sensor, hsen) (List.mem_cons_self _ _)
    have hgv : get_valid_components (.dict m) lg g sensor (dictKeys hsen.components) =
        .ok [] := by
      simp only [get_valid_components]
      rw [hq]
    rw [hgv]
    dsimp only
    exact ih (fun q hqq => h q (List.mem_cons_of_mem _ hqq))

theorem exportGroups_miss {m : List (String × List String)} {lg : Bool} {ds : ℕ}
    {sep : String} {nf : Option String} {acc : List (String × List ℚ)}
    {gs : List (String × HGroup)}
    (h : ∀ p ∈ gs, ∀ q ∈ p.2.sensors, dictLookup (if lg then p.1 else q.1) m = Option.none) :
    exportGroups (.dict m) lg ds sep nf acc gs = .ok acc := by
  induction gs with
  | nil => rfl
  | cons p rest ih =>
    obtain ⟨g, grp⟩ := p
    rw [exportGroups]
    rw [exportSensors_miss (fun q hq => h (g, grp) (List.mem_cons_self _ _) q hq)]
    dsimp only
    exact ih (fun p hp q hq => h p (List.mem_cons_of_mem _ hp) q hq)

/-- C2 (amended): with a selection-policy mapping none of whose keys
matches the recording (in particular the empty mapping), nothing is
retained; if additionally the time-axis synthesis is not triggered
(missing `samplerate` or `duration` attribute, or `return_t` false) the
dataframe export returns an empty table with zero columns and no error.
When the synthesis is triggered instead, the call raises `IndexError`
(see the counterexample). -/
theorem C2_unmatched_policy_empty_table_when_no_time (rec : HRecording)
    (m : List (String × List String)) (lg rt : Bool) (ds : ℕ) (sep : String)
    (nf : Option String)
    (hmiss : ∀ p ∈ rec.groups, ∀ q ∈ p.2.sensors,
      dictLookup (if lg then p.1 else q.1) m = Option.none)
    (ht : ((dictLookup "samplerate" rec.attrs).isSome &&
        (dictLookup "duration" rec.attrs).isSome && rt) = false) :
    export_from_hdf rec (.dict m) lg .dataframe ds sep rt nf = .ok (.dataframe []) := by
  unfold export_from_hdf
  rw [show buildSensorData rec (.dict m) lg ds sep nf = .ok [] from exportGroups_miss hmiss]
  dsimp only
  unfold addTimeAxis
  rw [ht]
  rfl

/-- C2 witness: the amended theorem applied to `recDurOnly` (one group and
sensor, empty policy mapping, no `samplerate` attribute). -/
theorem C2_unmatched_policy_empty_table_when_no_time_witness :
    export_from_hdf recDurOnly (.dict []) true .dataframe 1 "/" true Option.none =
      .ok (.dataframe []) :=
  C2_unmatched_policy_empty_table_when_no_time recDurOnly [] true true 1 "/" Option.none
    (fun _ _ _ _ => rfl) rfl

/-! ### Claim C7 -/

/-- C7 counterexample: `get_stats_multi` does not leave the caller's
`rec_names` list unchanged — called with `['.global_stats', 'r1']` and the
default avoid list, the post-call value of the list (the first component
of the embedded result, which models the in-place `list.remove`) is
`['r1']`, not the original list. -/
theorem C7_counterexample_rec_names_mutated :
    (get_stats_multi storeBare ["mean"] (some [".global_stats", "r1"]) [".global_stats"]).map
      Prod.fst = .ok ["r1"] ∧
    ([".global_stats", "r1"] : List String) ≠ ["r1"] :=
  ⟨rfl, by decide⟩

/-- C7 (amended): `get_stats_multi` mutates the caller-supplied
`rec_names` list in place: on success the list afterwards equals the
result of removing the first occurrence of each avoid entry in order
(`pyRemoveAll`); in this pure embedding no other input is represented as
mutable state. -/
theorem C7_get_stats_multi_mutates_rec_names (hf : List (String × HRecording))
    (fields : List String) (rec_names avoid : List String)
    (out : List String × List (String × StatsTable))
    (hok : get_stats_multi hf fields (some rec_names) avoid = .ok out) :
    pyRemoveAll avoid rec_names = .ok out.1 := by
  unfold get_stats_multi at hok
  dsimp only at hok
  cases hrem : pyRemoveAll avoid rec_names with
  | error e => rw [hrem] at hok; cases hok
  | ok names =>
    rw [hrem] at hok
    dsimp only at hok
    cases hloop : statsLoop hf fields
        (fields.foldl (fun d f => dictInsert f (StatsTable.mk names []) d) []) 0 names with
    | error e => rw [hloop] at hok; cases hok
    | ok tables =>
      rw [hloop] at hok
      dsimp only at hok
      obtain rfl : (names, tables) = out := Except.ok.inj hok
      rfl

/-- C7 witness: the amended theorem applied to `storeBare` with
`rec_names = ['.global_stats', 'r1']` and the default avoid list. -/
theorem C7_get_stats_multi_mutates_rec_names_witness :
    pyRemoveAll [".global_stats"] [".global_stats", "r1"] = .ok ["r1"] :=
  C7_get_stats_multi_mutates_rec_names storeBare ["mean"] [".global_stats", "r1"]
    [".global_stats"] (["r1"], [("mean", ⟨["r1"], []⟩)]) rfl

/-! ### Row-index invariants of the statistics aggregation loop -/

theorem dictLookup_mem_keys {α : Type} {k : String} {v : α} {d : List (String × α)}
    (h : dictLookup k d = some v) : k ∈ dictKeys d :=
  List.mem_map.mpr ⟨(k, v), dictLookup_mem h, rfl⟩

theorem tableSetAt_recs (t : StatsTable) (ix : ℕ) (col : String) (v : ℚ) :
    (tableSetAt t ix col v).recs = t.recs := by
  unfold tableSetAt
  cases dictLookup col t.cols <;> rfl

theorem statsFields_inv {ix : ℕ} {col : String} {comp : HComponent} {rs : List String}
    {tables tables' : List (String × StatsTable)} {fs : List String}
    (h : statsFields ix col comp tables fs = .ok tables')
    (hinv : ∀ p ∈ tables, p.2.recs = rs) :
    (∀ p ∈ tables', p.2.recs = rs) ∧ dictKeys tables' = dictKeys tables := by
  induction fs generalizing tables with
  | nil =>
    obtain rfl : tables = tables' := Except.ok.inj h
    exact ⟨hinv, rfl⟩
  | cons f fs ih =>
    rw [statsFields] at h
    cases ha : dictLookup f comp.attrs with
    | none => rw [ha] at h; cases h
    | some v =>
      rw [ha] at h
      dsimp only at h
      cases hT : dictLookup f tables with
      | none => rw [hT] at h; cases h
      | some t =>
        rw [hT] at h
        dsimp only at h
        have hmem : f ∈ dictKeys tables := dictLookup_mem_keys hT
        have hinv' : ∀ p ∈ dictInsert f (tableSetAt t ix col v) tables, p.2.recs = rs := by
          intro p hp
          rcases mem_dictInsert hp with rfl | hp
          · rw [tableSetAt_recs]
            exact hinv (f, t) (dictLookup_mem hT)
          · exact hinv p hp
        obtain ⟨h1, h2⟩ := ih h hinv'
        exact ⟨h1, h2.trans (dictKeys_dictInsert_of_mem _ hmem)⟩

theorem statsComps_inv {fields : List String} {ix : ℕ} {gname sname : String}
    {rs : List String} {tables tables' : List (String × StatsTable)}
    {comps : List (String × HComponent)}
    (h : statsComps fields ix gname sname tables comps = .ok tables')
    (hinv : ∀ p ∈ tables, p.2.recs = rs) :
    (∀ p ∈ tables', p.2.recs = rs) ∧ dictKeys tables' = dictKeys tables := by
  induction comps generalizing tables with
  | nil =>
    obtain rfl : tables = tables' := Except.ok.inj h
    exact ⟨hinv, rfl⟩
  | cons c comps ih =>
    obtain ⟨cname, comp⟩ := c
    rw [statsComps] at h
    cases hx : statsFields ix (gname ++ "/" ++ sname ++ "/" ++ cname) comp tables fields with
    | error e => rw [hx] at h; cases h
    | ok tbl =>
      rw [hx] at h
      dsimp only at h
      obtain ⟨h1, h2⟩ := statsFields_inv hx hinv
      obtain ⟨h3, h4⟩ := ih h h1
      exact ⟨h3, h4.trans h2⟩

theorem statsSensors_inv {fields : List String} {ix : ℕ} {gname : String}
    {rs : List String} {tables tables' : List (String × StatsTable)}
    {ss : List (String × HSensor)}
    (h : statsSensors fields ix gname tables ss = .ok tables')
    (hinv : ∀ p ∈ tables, p.2.recs = rs) :
    (∀ p ∈ tables', p.2.recs = rs) ∧ dictKeys tables' = dictKeys tables := by
  induction ss generalizing tables with
  | nil =>
    obtain rfl : tables = tables' := Except.ok.inj h
    exact ⟨hinv, rfl⟩
  | cons s ss ih =>
    obtain ⟨sname, sens⟩ := s
    rw [statsSensors] at h
    cases hx : statsComps fields ix gname sname tables sens.components with
    | error e => rw [hx] at h; cases h
    | ok tbl =>
      rw [hx] at h
      dsimp only at h
      obtain ⟨h1, h2⟩ := statsComps_inv hx hinv
      obtain ⟨h3, h4⟩ := ih h h1
      exact ⟨h3, h4.trans h2⟩

theorem statsGroups_inv {fields : List String} {ix : ℕ} {rs : List String}
    {tables tables' : List (String × StatsTable)} {gs : List (String × HGroup)}
    (h : statsGroups fields ix tables gs = .ok tables')
    (hinv : ∀ p ∈ tables, p.2.recs = rs) :
    (∀ p ∈ tables', p.2.recs = rs) ∧ dictKeys tables' = dictKeys tables := by
  induction gs generalizing tables with
  | nil =>
    obtain rfl : tables = tables' := Except.ok.inj h
    exact ⟨hinv, rfl⟩
  | cons g gs ih =>
    obtain ⟨gname, grp⟩ := g
    rw [statsGroups] at h
    cases hx : statsSensors fields ix gname tables grp.sensors with
    | error e => rw [hx] at h; cases h
    | ok tbl =>
      rw [hx] at h
      dsimp only at h
      obtain ⟨h1, h2⟩ := statsSensors_inv hx hinv
      obtain ⟨h3, h4⟩ := ih h h1
      exact ⟨h3, h4.trans h2⟩

theorem statsLoop_inv {hf : List (String × HRecording)} {fields : List String}
    {ix : ℕ} {rs : List String} {tables tables' : List (String × StatsTable)}
    {names : List String}
    (h : statsLoop hf fields tables ix names = .ok tables')
    (hinv : ∀ p ∈ tables, p.2.recs = rs) :
    (∀ p ∈ tables', p.2.recs = rs) ∧ dictKeys tables' = dictKeys tables := by
  induction names generalizing tables ix with
  | nil =>
    obtain rfl : tables = tables' := Except.ok.inj h
    exact ⟨hinv, rfl⟩
  | cons name rest ih =>
    rw [statsLoop] at h
    cases hr : dictLookup name hf with
    | none => rw [hr] at h; cases h
    | some r =>
      rw [hr] at h
      dsimp only at h
      cases hx : statsGroups fields ix tables r.groups with
      | error e => rw [hx] at h; cases h
      | ok tbl =>
        rw [hx] at h
        dsimp only at h
        obtain ⟨h1, h2⟩ := statsGroups_inv hx hinv
        obtain ⟨h3, h4⟩ := ih h h1
        exact ⟨h3, h4.trans h2⟩

theorem init_tables_inv {names : List String} (fields : List String) :
    ∀ d : List (String × StatsTable), (∀ p ∈ d, p.2.recs = names) →
    ∀ p ∈ fields.foldl (fun d f => dictInsert f (StatsTable.mk names []) d) d,
      p.2.recs = names := by
  induction fields with
  | nil => intro d hd; exact hd
  | cons f fs ih =>
    intro d hd
    rw [List.foldl_cons]
    apply ih
    intro p hp
    rcases mem_dictInsert hp with rfl | hp
    · rfl
    · exact hd p hp

theorem mem_keys_init {names : List String} (fields : List String) :
    ∀ (d : List (String × StatsTable)) (f : String), f ∈ fields ∨ f ∈ dictKeys d →
    f ∈ dictKeys (fields.foldl (fun d f => dictInsert f (StatsTable.mk names []) d) d) := by
  induction fields with
  | nil =>
    intro d f hf
    rcases hf with hf | hf
    · cases hf
    · exact hf
  | cons f0 fs ih =>
    intro d f hf
    rw [List.foldl_cons]
    rcases hf with hf | hf
    · rcases List.mem_cons.mp hf with rfl | hf
      · exact ih _ f (Or.inr (mem_keys_dictInsert.mpr (Or.inl rfl)))
      · exact ih _ f (Or.inl hf)
    · exact ih _ f (Or.inr (mem_keys_dictInsert.mpr (Or.inr hf)))

/-! ### Claim C6 -/

/-- C6 counterexample: `get_stats_multi` on an explicit recording list
that does not contain the default avoid entry `.global_stats` raises
`ValueError` (from `list.remove` on an absent element) instead of
treating the avoid entry as a filter. -/
theorem C6_counterexample_absent_avoid_entry_raises :
    get_stats_multi storeStats ["mean"] (some ["r1"]) [".global_stats"] =
      .error .valueError :=
  rfl

/-- C6 (amended): avoid entries are removed with `list.remove`, which
deletes only the first occurrence and requires each entry to be present
(raising `ValueError` otherwise, see the counterexample).  When the
sequential removal succeeds and the call returns, the returned recording
list is exactly the filtered list, every per-field table has that list as
its row index (one row per remaining requested recording, in order), and
every requested field has a table. -/
theorem C6_rows_follow_filtered_rec_names (hf : List (String × HRecording))
    (fields : List String) (rec_names avoid names : List String)
    (out : List String × List (String × StatsTable))
    (hrem : pyRemoveAll avoid rec_names = .ok names)
    (hok : get_stats_multi hf fields (some rec_names) avoid = .ok out) :
    out.1 = names ∧ (∀ p ∈ out.2, p.2.recs = names) ∧
    (∀ f ∈ fields, f ∈ dictKeys out.2) := by
  unfold get_stats_multi at hok
  dsimp only at hok
  rw [hrem] at hok
  dsimp only at hok
  cases hloop : statsLoop hf fields
      (fields.foldl (fun d f => dictInsert f (StatsTable.mk names []) d) []) 0 names with
  | error e => rw [hloop] at hok; cases hok
  | ok tables =>
    rw [hloop] at hok
    dsimp only at hok
    obtain rfl : (names, tables) = out := Except.ok.inj hok
    have hinit : ∀ p ∈ fields.foldl (fun d f => dictInsert f (StatsTable.mk names []) d)
        ([] : List (String × StatsTable)), p.2.recs = names :=
      init_tables_inv fields [] (by intro p hp; cases hp)
    obtain ⟨h1, h2⟩ := statsLoop_inv hloop hinit
    refine ⟨rfl, h1, ?_⟩
    intro f hf'
    rw [show dictKeys (names, tables).2 = dictKeys tables from rfl, h2]
    exact mem_keys_init fields [] f (Or.inl hf')

/-- C6 witness: the amended theorem applied to `storeBare` with
`rec_names = ['.global_stats', 'r1']` and the default avoid list, whose
removal succeeds. -/
theorem C6_rows_follow_filtered_rec_names_witness :
    pyRemoveAll [".global_stats"] [".global_stats", "r1"] = .ok ["r1"] ∧
    (["r1"], [("mean", StatsTable.mk ["r1"] [])]).1 = ["r1"] ∧
    (∀ p ∈ (["r1"], [("mean", StatsTable.mk ["r1"] [])]).2, p.2.recs = ["r1"]) ∧
    (∀ f ∈ ["mean"], f ∈ dictKeys (["r1"], [("mean", StatsTable.mk ["r1"] [])]).2) :=
  ⟨rfl, C6_rows_follow_filtered_rec_names storeBare ["mean"] [".global_stats", "r1"]
    [".global_stats"] ["r1"] (["r1"], [("mean", StatsTable.mk ["r1"] [])]) rfl rfl⟩

/-! ### Relating the export accumulator to the resolved entry sequence -/

theorem exportComponents_eq (sensor : String) (hs : HSensor) (ds : ℕ) (sep : String)
    (nf : Option String) :
    ∀ (cs : List String) (acc : List (String × List ℚ)),
      exportComponents sensor hs ds sep nf acc cs =
        (entriesComponents sensor hs ds sep nf cs).map
          (fun es => es.foldl (fun d p => dictInsert p.1 p.2 d) acc) := by
  intro cs
  induction cs with
  | nil => intro acc; rfl
  | cons c cs ih =>
    intro acc
    rw [exportComponents, entriesComponents]
    cases hr : resolve_sensor_name sensor hs nf with
    | error e => rfl
    | ok name =>
      dsimp only
      cases hc : dictLookup c hs.components with
      | none => rfl
      | some comp =>
        dsimp only
        rw [ih]
        cases he : entriesComponents sensor hs ds sep nf cs with
        | error e => rfl
        | ok rest => rfl

theorem exportSensors_eq (policy : SelectionPolicy) (lg : Bool) (ds : ℕ) (sep : String)
    (nf : Option String) (g : String) :
    ∀ (ss : List (String × HSensor)) (acc : List (String × List ℚ)),
      exportSensors policy lg ds sep nf g acc ss =
        (entriesSensors policy lg ds sep nf g ss).map
          (fun es => es.foldl (fun d p => dictInsert p.1 p.2 d) acc) := by
  intro ss
  induction ss with
  | nil => intro acc; rfl
  | cons q rest ih =>
    intro acc
    obtain ⟨sensor, hsen⟩ := q
    rw [exportSensors, entriesSensors]
    cases hv : get_valid_components policy lg g sensor (dictKeys hsen.components) with
    | error e => rfl
    | ok valid =>
      dsimp only
      rw [exportComponents_eq]
      cases he : entriesComponents sensor hsen ds sep nf valid with
      | error e => rfl
      | ok es =>
        dsimp only [Except.map]
        rw [ih]
        cases he' : entriesSensors policy lg ds sep nf g rest with
        | error e => rfl
        | ok es' =>
          dsimp only
          rw [List.foldl_append]
          rfl

theorem exportGroups_eq (policy : SelectionPolicy) (lg : Bool) (ds : ℕ) (sep : String)
    (nf : Option String) :
    ∀ (gs : List (String × HGroup)) (acc : List (String × List ℚ)),
      exportGroups policy lg ds sep nf acc gs =
        (entriesGroups policy lg ds sep nf gs).map
          (fun es => es.foldl (fun d p => dictInsert p.1 p.2 d) acc) := by
  intro gs
  induction gs with
  | nil => intro acc; rfl
  | cons p rest ih =>
    intro acc
    obtain ⟨g, grp⟩ := p
    rw [exportGroups, entriesGroups]
    rw [exportSensors_eq]
    cases he : entriesSensors policy lg ds sep nf g grp.sensors with
    | error e => rfl
    | ok es =>
      dsimp only [Except.map]
      rw [ih]
      cases he' : entriesGroups policy lg ds sep nf rest with
      | error e => rfl
      | ok es' =>
        dsimp only
        rw [List.foldl_append]
        rfl

theorem buildSensorData_eq (rec : HRecording) (policy : SelectionPolicy) (lg : Bool)
    (ds : ℕ) (sep : String) (nf : Option String) :
    buildSensorData rec policy lg ds sep nf =
      (resolvedEntries rec policy lg ds sep nf).map pyDictOf := by
  unfold buildSensorData resolvedEntries pyDictOf
  exact exportGroups_eq policy lg ds sep nf rec.groups []

theorem foldl_dictInsert_length {α : Type} :
    ∀ (es acc : List (String × α)),
      (es.foldl (fun d p => dictInsert p.1 p.2 d) acc).length ≤ acc.length + es.length ∧
      ((¬ (es.map Prod.fst).Nodup ∨ ∃ k, k ∈ es.map Prod.fst ∧ k ∈ dictKeys acc) →
        (es.foldl (fun d p => dictInsert p.1 p.2 d) acc).length < acc.length + es.length) := by
  intro es
  induction es with
  | nil =>
    intro acc
    refine ⟨by simp, ?_⟩
    rintro (h | ⟨k, hk, _⟩)
    · simp at h
    · cases hk
  | cons p rest ih =>
    intro acc
    obtain ⟨k, v⟩ := p
    rw [List.foldl_cons]
    by_cases hmem : k ∈ dictKeys acc
    · have hlen : (dictInsert k v acc).length = acc.length := length_dictInsert_of_mem v hmem
      obtain ⟨hle, _⟩ := ih (dictInsert k v acc)
      rw [hlen] at hle
      constructor
      · simp only [List.length_cons]
        omega
      · intro _
        simp only [List.length_cons]
        omega
    · have hlen : (dictInsert k v acc).length = acc.length + 1 :=
        length_dictInsert_of_not_mem v hmem
      obtain ⟨hle, hlt⟩ := ih (dictInsert k v acc)
      rw [hlen] at hle hlt
      constructor
      · simp only [List.length_cons]
        omega
      · rintro (h | ⟨k', hk', hk'acc⟩)
        · simp only [List.map_cons, List.nodup_cons, not_and] at h
          rcases Decidable.em (k ∈ rest.map Prod.fst) with hk | hk
          · have := hlt (Or.inr ⟨k, hk, mem_keys_dictInsert.mpr (Or.inl rfl)⟩)
            simp only [List.length_cons]
            omega
          · have hnd : ¬ (rest.map Prod.fst).Nodup := h hk
            have := hlt (Or.inl hnd)
            simp only [List.length_cons]
            omega
        · simp only [List.map_cons, List.mem_cons] at hk'
          rcases hk' with rfl | hk'
          · exact absurd hk'acc hmem
          · have := hlt (Or.inr ⟨k', hk', mem_keys_dictInsert.mpr (Or.inr hk'acc)⟩)
            simp only [List.length_cons]
            omega

theorem foldl_dictInsert_lookup {α : Type} :
    ∀ (es acc : List (String × α)) (x : String),
      dictLookup x (es.foldl (fun d p => dictInsert p.1 p.2 d) acc) =
        match dictLookup x es.reverse with
        | some v => some v
        | none => dictLookup x acc := by
  intro es
  induction es with
  | nil =>
    intro acc x
    simp [dictLookup]
  | cons p rest ih =>
    intro acc x
    obtain ⟨k, v⟩ := p
    rw [List.foldl_cons, ih, List.reverse_cons, dictLookup_append]
    cases hx : dictLookup x rest.reverse with
    | some w => rfl
    | none =>
      dsimp only
      by_cases hkx : k = x
      · subst hkx
        rw [show dictLookup k [(k, v)] = some v from by simp [dictLookup]]
        exact dictLookup_dictInsert_self k v acc
      · rw [show dictLookup x [(k, v)] = none from by simp [dictLookup, hkx]]
        exact dictLookup_dictInsert_ne (fun hh => hkx hh.symm) v acc

/-! ### Claim C10 -/

/-- C10: when two resolved (group, sensor, component) triples produce the
same column key, the Python dict assignment silently keeps only the
later-read array under that key: the export succeeds with the collapsed
dict, the output has strictly fewer columns than resolved triples, and
looking any key up returns its last-written array (the first hit in the
reversed entry sequence). -/
theorem C10_key_collision_keeps_last_array (rec : HRecording) (policy : SelectionPolicy)
    (lg : Bool) (ds : ℕ) (sep : String) (nf : Option String)
    (es : List (String × List ℚ))
    (hes : resolvedEntries rec policy lg ds sep nf = .ok es)
    (hdup : ¬ (es.map Prod.fst).Nodup) :
    export_from_hdf rec policy lg .dict ds sep false nf = .ok (.dict (pyDictOf es)) ∧
    (pyDictOf es).length < es.length ∧
    (∀ k, dictLookup k (pyDictOf es) = dictLookup k es.reverse) := by
  refine ⟨?_, ?_, ?_⟩
  · unfold export_from_hdf
    rw [buildSensorData_eq, hes]
    dsimp only [Except.map]
    unfold addTimeAxis
    simp only [Bool.and_false, Bool.false_eq_true, if_false]
    rfl
  · have := (foldl_dictInsert_length es []).2 (Or.inl hdup)
    simpa [pyDictOf] using this
  · intro k
    have := foldl_dictInsert_lookup es [] k
    rw [show pyDictOf es = es.foldl (fun d p => dictInsert p.1 p.2 d) [] from rfl]
    rw [this]
    cases dictLookup k es.reverse with
    | some w => rfl
    | none => rfl

/-- C10 witness: `recCollide` resolves two triples to the single column
key `s/x`; the theorem applied there. -/
theorem C10_key_collision_keeps_last_array_witness :
    resolvedEntries recCollide .nonePolicy true 1 "/" Option.none =
      .ok [("s/x", [1, 2]), ("s/x", [3, 4])] ∧
    ¬ (([("s/x", ([1, 2] : List ℚ)), ("s/x", [3, 4])]).map Prod.fst).Nodup ∧
    export_from_hdf recCollide .nonePolicy true .dict 1 "/" false Option.none =
      .ok (.dict (pyDictOf [("s/x", [1, 2]), ("s/x", [3, 4])])) ∧
    (pyDictOf [("s/x", ([1, 2] : List ℚ)), ("s/x", [3, 4])]).length <
      ([("s/x", ([1, 2] : List ℚ)), ("s/x", [3, 4])]).length ∧
    (∀ k, dictLookup k (pyDictOf [("s/x", ([1, 2] : List ℚ)), ("s/x", [3, 4])]) =
      dictLookup k ([("s/x", ([1, 2] : List ℚ)), ("s/x", [3, 4])]).reverse) :=
  ⟨rfl, by decide,
    C10_key_collision_keeps_last_array recCollide .nonePolicy true 1 "/" Option.none
      [("s/x", [1, 2]), ("s/x", [3, 4])] rfl (by decide)⟩

/-! ### Claim C4 -/

theorem natCeilDiv_eq_ceil (len k : ℕ) (hk : 1 ≤ k) :
    (((len + k - 1) / k : ℕ) : ℤ) = ⌈(len : ℚ) / (k : ℚ)⌉ := by
  have hk0 : 0 < k := hk
  have hkQ : (0 : ℚ) < (k : ℚ) := by exact_mod_cast hk0
  have hdm := Nat.div_add_mod (len + k - 1) k
  have hm : (len + k - 1) % k < k := Nat.mod_lt _ hk0
  set z := (len + k - 1) / k with hz
  set m := (len + k - 1) % k with hmdef
  have h1 : len ≤ k * z := by omega
  have h2 : k * z ≤ len + k - 1 := by omega
  symm
  rw [Int.ceil_eq_iff]
  constructor
  · rw [lt_div_iff₀ hkQ]
    have hlt : k * z < len + k := by omega
    have hltQ : ((k * z : ℕ) : ℚ) < (len : ℚ) + (k : ℚ) := by exact_mod_cast hlt
    push_cast
    push_cast at hltQ
    nlinarith
  · rw [div_le_iff₀ hkQ]
    have h1Q : ((len : ℕ) : ℚ) ≤ ((k * z : ℕ) : ℚ) := by exact_mod_cast h1
    push_cast at h1Q
    push_cast
    nlinarith

theorem exportComponents_len {sensor : String} {hs : HSensor} {ds : ℕ} {sep : String}
    {nf : Option String} {len L : ℕ}
    (hk : 1 ≤ ds)
    (hcomp : ∀ q ∈ hs.components, q.2.data.length = len)
    (hL : L = (len + ds - 1) / ds) :
    ∀ (cs : List String) (acc : List (String × List ℚ)),
      (∀ p ∈ acc, p.2.length = L) →
      ∀ sd', exportComponents sensor hs ds sep nf acc cs = .ok sd' →
      ∀ p ∈ sd', p.2.length = L := by
  intro cs
  induction cs with
  | nil =>
    intro acc hacc sd' h
    obtain rfl : acc = sd' := Except.ok.inj h
    exact hacc
  | cons c cs ih =>
    intro acc hacc sd' h
    rw [exportComponents] at h
    cases hr : resolve_sensor_name sensor hs nf with
    | error e => rw [hr] at h; cases h
    | ok name =>
      rw [hr] at h
      dsimp only at h
      cases hc : dictLookup c hs.components with
      | none => rw [hc] at h; cases h
      | some comp =>
        rw [hc] at h
        refine ih _ ?_ sd' h
        intro p hp
        rcases mem_dictInsert hp with rfl | hp
        · show (pySlice ds comp.data).length = L
          rw [pySlice_length hk, hcomp (c, comp) (dictLookup_mem hc), hL]
        · exact hacc p hp

theorem exportSensors_len {policy : SelectionPolicy} {lg : Bool} {ds : ℕ} {sep : String}
    {nf : Option String} {g : String} {len L : ℕ}
    (hk : 1 ≤ ds)
    (hL : L = (len + ds - 1) / ds) :
    ∀ (ss : List (String × HSensor)),
      (∀ ps ∈ ss, ∀ q ∈ ps.2.components, q.2.data.length = len) →
      ∀ (acc : List (String × List ℚ)), (∀ p ∈ acc, p.2.length = L) →
      ∀ sd', exportSensors policy lg ds sep nf g acc ss = .ok sd' →
      ∀ p ∈ sd', p.2.length = L := by
  intro ss
  induction ss with
  | nil =>
    intro _ acc hacc sd' h
    obtain rfl : acc = sd' := Except.ok.inj h
    exact hacc
  | cons q rest ih =>
    intro hss acc hacc sd' h
    obtain ⟨sensor, hsen⟩ := q
    rw [exportSensors] at h
    cases hv : get_valid_components policy lg g sensor (dictKeys hsen.components) with
    | error e => rw [hv] at h; cases h
    | ok valid =>
      rw [hv] at h
      dsimp only at h
      cases hc : exportComponents sensor hsen ds sep nf acc valid with
      | error e => rw [hc] at h; cases h
      | ok acc' =>
        rw [hc] at h
        have hacc' : ∀ p ∈ acc', p.2.length = L :=
          exportComponents_len hk
            (fun q hq => hss (sensor, hsen) (List.mem_cons_self _ _) q hq) hL
            valid acc hacc acc' hc
        exact ih (fun ps hps q hq => hss ps (List.mem_cons_of_mem _ hps) q hq)
          acc' hacc' sd' h

theorem exportGroups_len {policy : SelectionPolicy} {lg : Bool} {ds : ℕ} {sep : String}
    {nf : Option String} {len L : ℕ}
    (hk : 1 ≤ ds)
    (hL : L = (len + ds - 1) / ds) :
    ∀ (gs : List (String × HGroup)),
      (∀ pg ∈ gs, ∀ ps ∈ pg.2.sensors, ∀ q ∈ ps.2.components, q.2.data.length = len) →
      ∀ (acc : List (String × List ℚ)), (∀ p ∈ acc, p.2.length = L) →
      ∀ sd', exportGroups policy lg ds sep nf acc gs = .ok sd' →
      ∀ p ∈ sd', p.2.length = L := by
  intro gs
  induction gs with
  | nil =>
    intro _ acc hacc sd' h
    obtain rfl : acc = sd' := Except.ok.inj h
    exact hacc
  | cons pg rest ih =>
    intro hgs acc hacc sd' h
    obtain ⟨g, grp⟩ := pg
    rw [exportGroups] at h
    cases hx : exportSensors policy lg ds sep nf g acc grp.sensors with
    | error e => rw [hx] at h; cases h
    | ok acc' =>
      rw [hx] at h
      have hacc' : ∀ p ∈ acc', p.2.length = L :=
        exportSensors_len hk hL grp.sensors
          (fun ps hps q hq => hgs (g, grp) (List.mem_cons_self _ _) ps hps q hq)
          acc hacc acc' hx
      exact ih (fun pg hpg ps hps q hq => hgs pg (List.mem_cons_of_mem _ hpg) ps hps q hq)
        acc' hacc' sd' h

theorem addTimeAxis_len {rec : HRecording} {rt : Bool}
    {sd sd' : List (String × List ℚ)} {L : ℕ}
    (hsd : ∀ p ∈ sd, p.2.length = L)
    (h : addTimeAxis rec rt sd = .ok sd') :
    ∀ p ∈ sd', p.2.length = L := by
  unfold addTimeAxis at h
  split at h
  · cases sd with
    | nil => cases h
    | cons q rest =>
      obtain ⟨k0, v0⟩ := q
      obtain rfl := Except.ok.inj h
      intro p hp
      rcases mem_dictInsert hp with rfl | hp
      · show (npLinspace 0 _ v0.length).length = L
        rw [npLinspace_length]
        exact hsd (k0, v0) (List.mem_cons_self _ _)
      · exact hsd p hp
  · obtain rfl := Except.ok.inj h
    exact hsd

/-- C4: when every component array of the recording has raw length `len`
and the dataframe export with decimation factor `k ≥ 1` succeeds with at
least one column, the row count equals `(len + k - 1) / k`, which is
`ceil(len / k)` — the numpy stride `arr[::k]` keeps the first of every
block of `k` samples, and the synthesized time axis inherits the length
of the first retained column. -/
theorem C4_row_count_is_ceil_len_div_k (rec : HRecording) (policy : SelectionPolicy)
    (lg rt : Bool) (k len : ℕ) (sep : String) (nf : Option String)
    (cols : List (String × List ℚ))
    (hk : 1 ≤ k)
    (hlen : ∀ pg ∈ rec.groups, ∀ ps ∈ pg.2.sensors, ∀ q ∈ ps.2.components,
      q.2.data.length = len)
    (hexp : export_from_hdf rec policy lg .dataframe k sep rt nf = .ok (.dataframe cols))
    (hne : cols ≠ []) :
    dfRowCount cols = (len + k - 1) / k ∧
    (dfRowCount cols : ℤ) = ⌈(len : ℚ) / (k : ℚ)⌉ := by
  unfold export_from_hdf at hexp
  cases hb : buildSensorData rec policy lg k sep nf with
  | error e => rw [hb] at hexp; cases hexp
  | ok sd0 =>
    rw [hb] at hexp
    dsimp only at hexp
    cases ht : addTimeAxis rec rt sd0 with
    | error e => rw [ht] at hexp; cases hexp
    | ok sd =>
      rw [ht] at hexp
      dsimp only at hexp
      unfold finalizeExport at hexp
      dsimp only at hexp
      split at hexp
      · obtain hcols : ExportOutput.dataframe sd = .dataframe cols := Except.ok.inj hexp
        obtain rfl : sd = cols := by cases hcols; rfl
        have hsd0 : ∀ p ∈ sd0, p.2.length = (len + k - 1) / k :=
          exportGroups_len hk rfl rec.groups hlen [] (by intro p hp; cases hp) sd0 hb
        have hsd : ∀ p ∈ sd, p.2.length = (len + k - 1) / k := addTimeAxis_len hsd0 ht
        cases sd with
        | nil => exact absurd rfl hne
        | cons p rest =>
          obtain ⟨k0, v0⟩ := p
          have hrow : dfRowCount ((k0, v0) :: rest) = (len + k - 1) / k :=
            hsd (k0, v0) (List.mem_cons_self _ _)
          refine ⟨hrow, ?_⟩
          rw [hrow]
          exact natCeilDiv_eq_ceil len k hk
      · cases hexp

/-- C4 witness: `recLen5` (one component of raw length 5, no time
attributes) exported with decimation factor 2 has 3 = ceil(5/2) rows. -/
theorem C4_row_count_is_ceil_len_div_k_witness :
    dfRowCount [("s/x", ([1, 3, 5] : List ℚ))] = (5 + 2 - 1) / 2 ∧
    (dfRowCount [("s/x", ([1, 3, 5] : List ℚ))] : ℤ) = ⌈(5 : ℚ) / (2 : ℚ)⌉ :=
  C4_row_count_is_ceil_len_div_k recLen5 .nonePolicy true true 2 5 "/" Option.none
    [("s/x", [1, 3, 5])] (by decide) (by decide) rfl (by decide)
